import Mathlib

/-!
Verification of the ICD compiler of the cutplace repository
(`cutplace/cid.py`, supported by `cutplace/_tools.py`).

The compiler is embedded shallowly: the mutable `Cid` object becomes a
record threaded through `Except`-valued functions, raised Python
exceptions become `CidError` values, and the mutable input location
becomes an explicit `InputLocation` value stored in the state and
snapshotted into every error.

Collaborator modules of the repository that are not part of the given
sources (`cutplace.errors`, `cutplace.data`, `cutplace.fields`,
`cutplace.checks`, `cutplace.ranges`) are modelled from the
specification; each such definition carries a doc comment starting with
`Modelled from the spec:`.  Everything else is translated from
`cid.py` / `_tools.py`.
-/

/-! ## Python string primitives

Lean 4.14 kernel reduction gets stuck on `String.trim`, `String.toLower`,
`String.splitOn` and string order, so the Python string operations used by
the source are re-implemented structurally over `String.data`. -/

/-- Python `str.lower` restricted to ASCII, which is all the compiler
feeds it (row tags, property names, the empty-field indicator). -/
def pyLowerChar (c : Char) : Char :=
  if 'A' ≤ c ∧ c ≤ 'Z' then Char.ofNat (c.toNat + 32) else c

/-- Python `str.lower` (ASCII). -/
def pyLower (s : String) : String := ⟨s.data.map pyLowerChar⟩

/-- Python whitespace as recognised by `str.strip`. -/
def isPySpace (c : Char) : Bool :=
  c == ' ' || c == '\t' || c == '\n' || c == '\r' || c == '\x0b' || c == '\x0c'

/-- Python `str.strip()`. -/
def pyStrip (s : String) : String :=
  ⟨((s.data.dropWhile isPySpace).reverse.dropWhile isPySpace).reverse⟩

/-- Python `repr` of a plain string without quotes or escapes in it
(the compiler only ever formats identifiers, cell texts and indicator
letters with `%r`); `\x27` is the single-quote character. -/
def pyRepr (s : String) : String := "\x27" ++ s ++ "\x27"

/-- Python `str` of a list of strings, e.g. `[0x27a0x27, 0x27b0x27]`
rendered with single quotes. -/
def joinCommaSep : List String → String
  | [] => ""
  | [x] => x
  | x :: y :: xs => x ++ ", " ++ joinCommaSep (y :: xs)

/-- Python `str` of a list of strings. -/
def pyListRepr (l : List String) : String :=
  "[" ++ joinCommaSep (l.map pyRepr) ++ "]"

/-- Python `str.split(".")`: auxiliary walk over the characters. -/
def splitDotAux : List Char → List Char → List String
  | [], acc => [String.mk acc.reverse]
  | c :: cs, acc =>
    if c == '.' then String.mk acc.reverse :: splitDotAux cs []
    else splitDotAux cs (c :: acc)

/-- Python `str.split(".")`; never returns an empty list. -/
def splitDot (s : String) : List String := splitDotAux s.data []

/-- Code-point comparison of strings, as Python `sorted` orders `str`. -/
def pyStrLe : List Char → List Char → Bool
  | [], _ => true
  | _ :: _, [] => false
  | a :: as, b :: bs =>
    if a.toNat < b.toNat then true
    else if a.toNat = b.toNat then pyStrLe as bs
    else false

/-- Insert into a sorted list of strings, keeping the order. -/
def insertStr (s : String) : List String → List String
  | [] => [s]
  | x :: xs => if pyStrLe s.data x.data then s :: x :: xs else x :: insertStr s xs

/-- Python `sorted` on a list of strings (insertion sort, code-point order). -/
def sortStrings (l : List String) : List String := l.foldr insertStr []

/-- Embeds `_tools.humanReadableList`: items joined with `, ` and a final
` or `, each item rendered with `%r`. -/
def humanReadableList (items : List String) : String :=
  if items.length = 0 then ""
  else if items.length = 1 then pyRepr (items.getD 0 "")
  else
    (List.range items.length).foldl
      (fun result itemIndex =>
        let result :=
          if itemIndex = items.length - 1 then result ++ " or "
          else if 0 < itemIndex then result ++ ", "
          else result
        result ++ pyRepr (items.getD itemIndex "")) ""

/-! ## Locations and errors -/

/-- Modelled from the spec: `errors.InputLocation`, a cursor
`(path, line, cell, has_cell)` with 1-based line and cell. -/
structure InputLocation where
  path : String
  line : Nat
  cell : Nat
  has_cell : Bool
deriving DecidableEq, Repr

/-- Modelled from the spec: a fresh location at the start of a source. -/
def freshLocation (path : String) : InputLocation := ⟨path, 1, 1, true⟩

/-- Modelled from the spec: `advance_line` resets the cell to the start of
the row and increments the line. -/
def advance_line (loc : InputLocation) : InputLocation :=
  { loc with line := loc.line + 1, cell := 1 }

/-- Modelled from the spec: `advance_cell` increments the cell. -/
def advance_cell (loc : InputLocation) : InputLocation :=
  { loc with cell := loc.cell + 1 }

/-- Modelled from the spec: `set_cell(n)` jumps the cell directly to `n`. -/
def set_cell (loc : InputLocation) (n : Nat) : InputLocation :=
  { loc with cell := n }

/-- Modelled from the spec: `errors.create_caller_input_location()`, the
freshly captured caller location used when no row-scoped location exists;
it carries no cell granularity. -/
def callerInputLocation : InputLocation := ⟨"<caller>", 1, 1, false⟩

/-- Modelled from the spec: the typed errors raised by the compiler, each
carrying its message and a snapshot of the location at raise time (the
location is `none` where the source raises without one).  Python built-in
exceptions that escape untyped are `indexError` and `attributeError`. -/
inductive CidError where
  | fieldSyntaxError (message : String) (location : Option InputLocation)
  | cidSyntaxError (message : String) (location : Option InputLocation)
  | checkSyntaxError (message : String) (location : Option InputLocation)
      (see_also : Option (String × InputLocation))
  | dataFormatSyntaxError (message : String) (location : Option InputLocation)
  | dataFormatValueError (message : String) (location : Option InputLocation)
  | fieldLookupError (message : String)
  | fieldValueError (message : String)
  | indexError
  | attributeError (missing_attribute : String)
deriving DecidableEq, Repr

/-! ## Collaborator data model -/

/-- Modelled from the spec: `data.DataFormat` with its format name and
`name → value` properties. -/
structure DataFormat where
  format : String
  properties : List (String × String)
deriving DecidableEq, Repr

/-- Modelled from the spec: the physical layout families of `data`. -/
def FORMAT_FIXED : String := "fixed"

/-- Modelled from the spec: the set of known data-format names accepted by
the `data.DataFormat` constructor. -/
def validFormats : List String := ["delimited", "excel", "fixed", "ods"]

/-- Modelled from the spec: `data.DataFormat(name, location)` — created by
the first data-format row, rejecting unknown format names. -/
def mkDataFormat (name : String) (loc : InputLocation) : Except CidError DataFormat :=
  if name ∈ validFormats then .ok { format := name, properties := [] }
  else
    .error (.dataFormatSyntaxError
      ("format is " ++ pyRepr name ++ " but must be one of: " ++ pyListRepr validFormats)
      (some loc))

/-- First-match lookup in an association list, i.e. a Python `dict` get
(keys are kept unique by construction). -/
def alLookup {α : Type} (k : String) (m : List (String × α)) : Option α :=
  (m.find? (fun p => p.1 == k)).map Prod.snd

/-- Python `dict` assignment: replace in place if the key exists,
otherwise append. -/
def dictSet {α : Type} (m : List (String × α)) (k : String) (v : α) : List (String × α) :=
  if (m.find? (fun p => p.1 == k)).isSome then
    m.map (fun p => if p.1 == k then (k, v) else p)
  else m ++ [(k, v)]

/-- Modelled from the spec: `DataFormat.set_property(name, value)` stores
an additional property (validation of property names belongs to the
out-of-scope `data` module). -/
def dfSetProperty (df : DataFormat) (name value : String) : DataFormat :=
  { df with properties := dictSet df.properties name value }

/-- Modelled from the spec: a constructed field format — name, empty flag,
the resolved length descriptor `.items` (list of `(lower, upper)`
intervals, possibly empty or unbounded), the display text of the length
descriptor, the rule, and the settable example. -/
structure FieldFormat where
  field_name : String
  is_allowed_to_be_empty : Bool
  lengthItems : List (Option Int × Option Int)
  length_text : String
  rule : String
  example_text : Option String := none
deriving DecidableEq, Repr

/-- Modelled from the spec: a constructed check — its resolved class, the
description, the rule, the field names and the location captured at
construction time. -/
structure Check where
  className : String
  description : String
  rule : String
  field_names : List String
  location : InputLocation
deriving DecidableEq, Repr

/-- Modelled from the spec: the two capability families of the type
registry (keyed by plain class name) together with the pluggable
factories the compiler instantiates by name.  `mkFieldFormat` receives
the resolved class name, the field name, the empty flag, the raw length
text (absent when the row had no length cell), the rule and the data
format; `checkExample` validates a prospective example value;
`mkCheck` receives the resolved class name, description, rule, field
names and current location. -/
structure Factories where
  fieldClassNames : List String
  checkClassNames : List String
  mkFieldFormat : String → String → Bool → Option String → String → DataFormat →
    Except CidError FieldFormat
  checkExample : FieldFormat → String → Except CidError Unit
  mkCheck : String → String → String → List String → InputLocation →
    Except CidError Check

/-! ## The schema model -/

/-- Decidable equality of `Except` results, available for the error and
result types used here. -/
instance {ε α : Type} [DecidableEq ε] [DecidableEq α] : DecidableEq (Except ε α) := fun x y =>
  match x, y with
  | .ok a, .ok b =>
    if h : a = b then isTrue (by rw [h]) else isFalse (fun hh => by cases hh; exact h rfl)
  | .error a, .error b =>
    if h : a = b then isTrue (by rw [h]) else isFalse (fun hh => by cases hh; exact h rfl)
  | .ok _, .error _ => isFalse (fun hh => by cases hh)
  | .error _, .ok _ => isFalse (fun hh => by cases hh)

/-- The compiled schema model: the state of a `cid.Cid` object. -/
structure Cid where
  data_format : Option DataFormat
  field_names : List String
  field_formats : List FieldFormat
  field_name_to_format_map : List (String × FieldFormat)
  field_name_to_index_map : List (String × Nat)
  check_names : List String
  check_name_to_check_map : List (String × Check)
  location : InputLocation
deriving DecidableEq, Repr

/-- A freshly constructed `Cid` (its location is unset until `read`). -/
def cidNew : Cid :=
  { data_format := none, field_names := [], field_formats := [],
    field_name_to_format_map := [], field_name_to_index_map := [],
    check_names := [], check_name_to_check_map := [],
    location := ⟨"", 1, 1, false⟩ }

/-! ## Type registry resolution (`Cid._create_class`) -/

/-- The message of the typed lookup error raised by `Cid._create_class`
for an unresolvable type qualifier. -/
def unknown_class_message (name_to_class_map : List String)
    (class_qualifier class_name_appendix type_name : String) : String :=
  "cannot find class for " ++ type_name ++ " " ++ class_qualifier
    ++ ": related class is " ++ ((splitDot class_qualifier).getLastD "" ++ class_name_appendix)
    ++ " but must be one of: " ++ humanReadableList (sortStrings name_to_class_map)

/-- Embeds `Cid._create_class`: the final dot-separated component of the
qualifier plus the appendix is looked up among the registered class
names; on failure the given typed error is raised (without a location),
listing all known names sorted and human-joined.  A resolved class is
identified by its registered name. -/
def create_class (name_to_class_map : List String)
    (class_qualifier class_name_appendix type_name : String)
    (error_to_raise_on_unknown_class : String → CidError) : Except CidError String :=
  let class_name := (splitDot class_qualifier).getLastD "" ++ class_name_appendix
  if class_name ∈ name_to_class_map then .ok class_name
  else .error (error_to_raise_on_unknown_class
    (unknown_class_message name_to_class_map class_qualifier class_name_appendix type_name))

/-- Embeds `Cid._create_field_format_class`. -/
def create_field_format_class (F : Factories) (field_type : String) : Except CidError String :=
  create_class F.fieldClassNames field_type "FieldFormat" "field"
    (fun m => .fieldSyntaxError m none)

/-- Embeds `Cid._create_check_class`. -/
def create_check_class (F : Factories) (check_type : String) : Except CidError String :=
  create_class F.checkClassNames check_type "Check" "check"
    (fun m => .checkSyntaxError m none none)

/-! ## Name validation -/

/-- Start character of a Python identifier token. -/
def isNameStart (c : Char) : Bool := c.isAlpha || c == '_'

/-- Later character of a Python identifier token. -/
def isNameChar (c : Char) : Bool := c.isAlpha || c.isDigit || c == '_'

/-- Embeds `_tools.validatedPythonName`: the stripped value must consist
of exactly one identifier token; on failure the `NameError` message is
returned.  The standard-library tokenizer is approximated: the first
token is the maximal identifier run, and whatever non-blank text follows
it is reported as the offending second token. -/
def validatedPythonName (name value : String) : Except String String :=
  let stripped := pyStrip value
  match stripped.data with
  | [] => .error (name ++ " must not be empty but was: " ++ pyRepr value)
  | c :: _ =>
    if isNameStart c then
      let tok := String.mk (stripped.data.takeWhile isNameChar)
      let rest := pyStrip (String.mk (stripped.data.dropWhile isNameChar))
      if rest.data.isEmpty then .ok tok
      else .error (name ++ " must be a single word, but after " ++ pyRepr tok
        ++ " there also is " ++ pyRepr rest)
    else .error (name ++ " must contain only ASCII letters, digits and underscore (_) but is: "
      ++ pyRepr value)

/-- Modelled from the spec: `fields.validated_field_name` — the field name
is validated as a bare identifier (letters, digits, underscore; a single
non-empty token), any violation raising a field syntax error at the
current location. -/
def validated_field_name (value : String) (loc : InputLocation) : Except CidError String :=
  match validatedPythonName "field name" value with
  | .ok name => .ok name
  | .error m => .error (.fieldSyntaxError m (some loc))

/-! ## Field definition rows (`Cid.add_field_format`) -/

/-- Embeds the empty-flag parsing of `Cid.add_field_format` (cell 3): the
stripped, lower-cased text must be the empty indicator `x` or blank. -/
def parse_empty_flag (item : String) : Except String Bool :=
  let t := pyLower (pyStrip item)
  if t = "x" then .ok true
  else if t ≠ "" then
    .error ("mark for empty field must be " ++ pyRepr "x" ++ " or empty but is " ++ pyRepr t)
  else .ok false

/-- Embeds the field-type parsing of `Cid.add_field_format` (cell 5): a
blank cell yields no type; otherwise every dot-separated part is
validated as a Python name and the parts are rejoined with dots. -/
def parse_field_type (item : String) : Except String (Option String) :=
  let t := pyStrip item
  if t.data.isEmpty then .ok none
  else
    match (splitDot t).foldlM
        (fun field_type part => do
          let p ← validatedPythonName "field type part" part
          pure (if field_type = "" then p else field_type ++ "." ++ p)) "" with
    | .ok ft => .ok (some ft)
    | .error m => .error m

/-- Embeds the defaulting of a blank field type to `Text`. -/
def defaultFieldType (ft : Option String) : String :=
  let t := ft.getD ""
  if t = "" then "Text" else t

/-- Embeds the example-validation error handling of `Cid.add_field_format`
(cell 2): a `FieldValueError` of the example setter is wrapped into a
located `CidSyntaxError`; any other exception propagates unchanged. -/
def wrapExampleError (field_name : String) (loc : InputLocation) : CidError → CidError
  | .fieldValueError m =>
    .cidSyntaxError ("cannot validate example for field " ++ pyRepr field_name ++ ": " ++ m)
      (some loc)
  | e => e

/-- Embeds the fixed-format length validation of `Cid.add_field_format`
(cell 4): empty intervals mean the length was not specified; exactly one
interval whose bounds are equal and at least 1 is accepted; anything else
is rejected.  The bound comparison follows Python 2 ordering, under which
an absent (`None`) bound is smaller than every integer. -/
def validate_fixed_length (field_name : String) (field_format : FieldFormat)
    (loc : InputLocation) : Except CidError Unit :=
  match field_format.lengthItems with
  | [] =>
    .error (.fieldSyntaxError
      ("length of field " ++ pyRepr field_name ++ " must be specified with fixed data format")
      (some loc))
  | (lower, upper) :: rest =>
    if rest.isEmpty then
      if lower = upper then
        if (match lower with | none => true | some v => v < 1) then
          .error (.fieldSyntaxError
            ("length of field " ++ pyRepr field_name
              ++ " for fixed data format must be at least 1 but is : "
              ++ field_format.length_text)
            (some loc))
        else .ok ()
      else
        .error (.fieldSyntaxError
          ("length of field " ++ pyRepr field_name
            ++ " for fixed data format must be a single value but is: "
            ++ field_format.length_text)
          (some loc))
    else
      .error (.fieldSyntaxError
        ("length of field " ++ pyRepr field_name
          ++ " for fixed data format must be a single value but is: "
          ++ field_format.length_text)
        (some loc))

/-- Embeds the final mutation block of `Cid.add_field_format` (the four
coupled field structures are extended together, with the location set
back to cell 1). -/
def insertField (cid : Cid) (field_name : String) (field_format : FieldFormat)
    (loc : InputLocation) : Cid :=
  { cid with
    field_name_to_format_map := dictSet cid.field_name_to_format_map field_name field_format,
    field_name_to_index_map :=
      dictSet cid.field_name_to_index_map field_name cid.field_names.length,
    field_names := cid.field_names ++ [field_name],
    field_formats := cid.field_formats ++ [field_format],
    location := set_cell loc 1 }

/-- Embeds `Cid.add_field_format`: parses the up-to-six cells of a field
definition row, resolves and instantiates the field format, rejects
duplicate names (cell 1), validates the example (cell 2) and the
fixed-format length shape (cell 4), and appends the field to all four
field structures.  Comparisons of possibly-absent interval bounds follow
Python 2 ordering, under which `None` is smaller than every integer. -/
def add_field_format (F : Factories) (cid : Cid) (items : List String) : Except CidError Cid :=
  match cid.data_format with
  | none => .error (.cidSyntaxError "data format must be specified before first field"
      (some cid.location))
  | some df =>
    if 1 ≤ items.length then
      match validated_field_name (items.getD 0 "") cid.location with
      | .error e => .error e
      | .ok field_name =>
        let loc := if 2 ≤ items.length then advance_cell cid.location else cid.location
        let field_example := if 2 ≤ items.length then items.getD 1 "" else ""
        let loc := if 3 ≤ items.length then advance_cell loc else loc
        match (if 3 ≤ items.length then parse_empty_flag (items.getD 2 "") else .ok false) with
        | .error m => .error (.fieldSyntaxError m (some loc))
        | .ok field_is_allowed_to_be_empty =>
          let loc := if 4 ≤ items.length then advance_cell loc else loc
          let field_length := if 4 ≤ items.length then some (pyStrip (items.getD 3 "")) else none
          let loc := if 5 ≤ items.length then advance_cell loc else loc
          match (if 5 ≤ items.length then parse_field_type (items.getD 4 "") else .ok none) with
          | .error m => .error (.fieldSyntaxError m (some loc))
          | .ok field_type_opt =>
            let loc := if 6 ≤ items.length then advance_cell loc else loc
            let field_rule := if 6 ≤ items.length then pyStrip (items.getD 5 "") else ""
            let field_type := defaultFieldType field_type_opt
            match create_field_format_class F field_type with
            | .error e => .error e
            | .ok field_class =>
              match F.mkFieldFormat field_class field_name field_is_allowed_to_be_empty
                  field_length field_rule df with
              | .error e => .error e
              | .ok field_format =>
                match alLookup field_name cid.field_name_to_format_map with
                | some _ =>
                  .error (.fieldSyntaxError
                    ("field name must be used for only one field: " ++ field_name)
                    (some (set_cell loc 1)))
                | none =>
                  match (if field_example ≠ "" then F.checkExample field_format field_example
                      else .ok ()) with
                  | .error e => .error (wrapExampleError field_name (set_cell loc 2) e)
                  | .ok () =>
                    let field_format :=
                      if field_example ≠ "" then { field_format with example_text := some field_example }
                      else field_format
                    match (if df.format = FORMAT_FIXED then
                        validate_fixed_length field_name field_format (set_cell loc 4)
                      else Except.ok ()) with
                    | .error e => .error e
                    | .ok () => .ok (insertField cid field_name field_format loc)
    else
      .error (.fieldSyntaxError
        ("field format row (marked with " ++ pyRepr "f" ++ ") must at least contain a field name")
        (some cid.location))

/-! ## Check rows (`Cid.add_check`) -/

/-- Python list indexing `items[i]` for a non-negative index: out of range
raises `IndexError`. -/
def pyGetStr (l : List String) (i : Nat) : Except CidError String :=
  if h : i < l.length then .ok (l.get ⟨i, h⟩) else .error .indexError

/-- Embeds the type-scanning loop of `Cid.add_check` (`for i in
range(1, len(items))`): the running pair is the found check type and the
rule index, initially `(None, 2)`; a column whose value suffixed with
`Check` resolves in the check registry overwrites both, so the last
resolving column wins. -/
def scanCheckType (F : Factories) (items : List String) : Option String × Nat :=
  (List.range' 1 (items.length - 1)).foldl
    (fun acc i =>
      if (items.getD i "" ++ "Check") ∈ F.checkClassNames then (some (items.getD i ""), i + 1)
      else acc)
    (none, 2)

/-- Embeds the final mutation block of `Cid.add_check` (map and ordered
description list are extended together). -/
def insertCheck (cid : Cid) (check_description : String) (check : Check)
    (loc : InputLocation) : Cid :=
  { cid with
    check_name_to_check_map := dictSet cid.check_name_to_check_map check_description check,
    check_names := cid.check_names ++ [check_description],
    location := loc }

/-- Embeds `Cid.add_check`: requires at least 2 columns, scans for the
last resolving type column, extracts the rule from `items[rule_index]`
when the row has at least 3 columns, instantiates the check, and rejects
duplicate descriptions pointing back at the original definition. -/
def add_check (F : Factories) (cid : Cid) (items : List String) : Except CidError Cid :=
  if items.length < 2 then
    .error (.checkSyntaxError
      ("check row (marked with " ++ pyRepr "c" ++ ") must contain at least 2 columns")
      (some cid.location) none)
  else
    let check_description := items.getD 0 ""
    match scanCheckType F items with
    | (none, _) =>
      .error (.checkSyntaxError
        ("check type should be one of " ++ pyListRepr F.checkClassNames ++ " but is "
          ++ pyListRepr ((items.drop 1).take (items.length - 3)))
        (some cid.location) none)
    | (some check_type, rule_index) =>
      match (if 3 ≤ items.length then pyGetStr items rule_index else .ok "") with
      | .error e => .error e
      | .ok check_rule =>
        match create_check_class F check_type with
        | .error e => .error e
        | .ok check_class =>
          match F.mkCheck check_class check_description check_rule cid.field_names cid.location with
          | .error e => .error e
          | .ok check =>
            let loc := set_cell cid.location 1
            match alLookup check_description cid.check_name_to_check_map with
            | some existing_check =>
              .error (.checkSyntaxError
                ("check description must be used only once: " ++ pyRepr check_description)
                (some loc) (some ("initial declaration", existing_check.location)))
            | none => .ok (insertCheck cid check_description check loc)

/-! ## Schema model accessors -/

/-- Embeds `Cid.field_index`: the column index of the named field, or a
`FieldLookupError` enumerating all known field names sorted and
human-joined. -/
def field_index (cid : Cid) (field_name : String) : Except CidError Nat :=
  match alLookup field_name cid.field_name_to_index_map with
  | some result => .ok result
  | none =>
    .error (.fieldLookupError ("unknown field name " ++ pyRepr field_name
      ++ " must be replaced by one of: " ++ humanReadableList (sortStrings cid.field_names)))

/-- Embeds `Cid.field_value_for`: a row whose length differs from the
number of fields raises a `DataFormatValueError` carrying a freshly
captured caller location; on a matching row the source then evaluates
`self.get_field_name_index(field_name)`, a method that does not exist
anywhere in the class (the defined method is `field_index`), so Python
raises `AttributeError`. -/
def field_value_for (cid : Cid) (field_name : String) (row : List String) :
    Except CidError String :=
  let actual_row_count := row.length
  let expected_row_count := cid.field_names.length
  if actual_row_count ≠ expected_row_count then
    .error (.dataFormatValueError
      ("row must have " ++ toString expected_row_count ++ " items but has "
        ++ toString actual_row_count ++ ": " ++ pyListRepr row)
      (some callerInputLocation))
  else .error (.attributeError "get_field_name_index")

/-! ## The row-tag state machine (`Cid.read`) -/

/-- Embeds the row padding of `Cid.read`: `(row[1:] + [''] * 6)[:6]`. -/
def padRow (rest : List String) : List String :=
  (rest ++ List.replicate 6 "").take 6

/-- Embeds the per-row dispatch of `Cid.read`: a blank row is ignored, a
`d` row creates the data format or sets a property, `f` and `c` rows are
delegated, any other tag is a syntax error; afterwards the location
advances to the next line. -/
def dispatchTag (F : Factories) (cid : Cid) (row_type : String) (row_data : List String) :
    Except CidError Cid :=
  if row_type = "d" then
        let name := row_data.getD 0 ""
        let value := row_data.getD 1 ""
        let loc := advance_cell cid.location
        if name = "" then
          Except.error (CidError.dataFormatSyntaxError
            "name of data format property must be specified" (some loc))
        else
          let loc := advance_cell loc
          match cid.data_format with
          | none =>
            match mkDataFormat (pyLower value) loc with
            | .error e => Except.error e
            | .ok df => Except.ok { cid with data_format := some df, location := loc }
          | some df =>
            Except.ok { cid with
              data_format := some (dfSetProperty df (pyLower name) (pyLower value)),
              location := loc }
  else if row_type = "f" then add_field_format F cid row_data
  else if row_type = "c" then add_check F cid row_data
  else if row_type ≠ "" then
    Except.error (CidError.dataFormatSyntaxError
      ("CID row type is " ++ pyRepr row_type ++ " but must be empty or one of: C, D, or F")
      (some cid.location))
  else Except.ok cid

/-- Embeds the non-blank-row handling of `Cid.read`: the tag is the
lower-cased first cell; the row data are the six padded cells after it. -/
def dispatchRow (F : Factories) (cid : Cid) (row : List String) : Except CidError Cid :=
  match row with
  | [] => Except.ok cid
  | tag :: rest => dispatchTag F cid (pyLower tag) (padRow rest)

/-- Embeds the per-row step of `Cid.read`: the row dispatch followed by
`advance_line` (which on an error never runs — the exception aborts). -/
def processRow (F : Factories) (cid : Cid) (row : List String) : Except CidError Cid :=
  match dispatchRow F cid row with
  | .error e => .error e
  | .ok cid' => .ok { cid' with location := advance_line cid'.location }

/-- Embeds `Cid.read`: installs a fresh location for the source and folds
the row dispatch over all rows, aborting on the first error. -/
def read (F : Factories) (cid : Cid) (source_path : String) (rows : List (List String)) :
    Except CidError Cid :=
  rows.foldlM (processRow F) { cid with location := freshLocation source_path }

/-! ## A concrete provider set

Used to exercise the compiler on concrete inputs; the providers are
out-of-scope collaborators, so they are modelled from the spec. -/

/-- Decimal digit string to a number. -/
def pyToNat (cs : List Char) : Option Nat :=
  if cs ≠ [] ∧ cs.all Char.isDigit then
    some (cs.foldl (fun n c => n * 10 + (c.toNat - 48)) 0)
  else none

/-- Python `str.split(":")`: auxiliary walk over the characters. -/
def splitColonAux : List Char → List Char → List String
  | [], acc => [String.mk acc.reverse]
  | c :: cs, acc =>
    if c == ':' then String.mk acc.reverse :: splitColonAux cs []
    else splitColonAux cs (c :: acc)

/-- Python `str.split(":")`. -/
def splitColon (s : String) : List String := splitColonAux s.data []

/-- Modelled from the spec: one bound of a length range — blank means
unbounded. -/
def parseBound (s : String) : Except CidError (Option Int) :=
  let t := pyStrip s
  if t = "" then .ok none
  else
    match pyToNat t.data with
    | some n => .ok (some (n : Int))
    | none => .error (.fieldSyntaxError ("length bound must be an integer but is: " ++ pyRepr t) none)

/-- Modelled from the spec: the resolved length intervals of a length
text — blank yields no interval, `n` a closed interval, `lower:upper` a
range with optional bounds. -/
def parseLengthItems (t : String) : Except CidError (List (Option Int × Option Int)) :=
  if pyStrip t = "" then .ok []
  else
    match splitColon (pyStrip t) with
    | [single] =>
      match parseBound single with
      | .ok b => .ok [(b, b)]
      | .error e => .error e
    | [lo, hi] =>
      match parseBound lo, parseBound hi with
      | .ok a, .ok b => .ok [(a, b)]
      | .error e, _ => .error e
      | _, .error e => .error e
    | _ => .error (.fieldSyntaxError ("length must have at most one colon but is: " ++ pyRepr t) none)

/-- Modelled from the spec: a concrete provider set with `Text` and
`Integer` field formats and `IsUnique` and `DistinctCount` checks, whose
factories follow the provider contracts of the spec. -/
def F0 : Factories :=
  { fieldClassNames := ["IntegerFieldFormat", "TextFieldFormat"],
    checkClassNames := ["DistinctCountCheck", "IsUniqueCheck"],
    mkFieldFormat := fun _cls name is_empty length_text rule _df =>
      match parseLengthItems (length_text.getD "") with
      | .ok its =>
        .ok { field_name := name, is_allowed_to_be_empty := is_empty, lengthItems := its,
              length_text := length_text.getD "", rule := rule, example_text := none }
      | .error e => .error e,
    checkExample := fun _ff _example => .ok (),
    mkCheck := fun cls description rule names loc => .ok ⟨cls, description, rule, names, loc⟩ }

/-- The location `read` installs for a source named `cid`. -/
def cidLoc : InputLocation := freshLocation "cid"

/-- A schema state with a delimited data format and no fields. -/
def cidDelimited : Cid :=
  { cidNew with data_format := some ⟨"delimited", []⟩, location := cidLoc }

/-- A schema state with a fixed data format and no fields. -/
def cidFixed : Cid :=
  { cidNew with data_format := some ⟨"fixed", []⟩, location := cidLoc }

/-- A concrete field format for the field `id`. -/
def ffId : FieldFormat :=
  { field_name := "id", is_allowed_to_be_empty := false, lengthItems := [],
    length_text := "", rule := "", example_text := none }

/-- A schema state with the single field `id`. -/
def cidOneField : Cid :=
  { cidDelimited with
    field_names := ["id"], field_formats := [ffId],
    field_name_to_format_map := [("id", ffId)],
    field_name_to_index_map := [("id", 0)] }

/-- A concrete check with description `desc1`. -/
def checkDesc1 : Check := ⟨"IsUniqueCheck", "desc1", "id", [], cidLoc⟩

/-- A schema state with the single check `desc1`. -/
def cidOneCheck : Cid :=
  { cidDelimited with
    check_names := ["desc1"], check_name_to_check_map := [("desc1", checkDesc1)] }

/-! ## The schema-model invariant (claim C4) -/

/-- The structural invariant of the schema model: the number of fields
equals the size of the name-to-format and name-to-index maps, the stored
index of every field name is its position in the ordered field sequence,
field names are pairwise distinct, and check descriptions are pairwise
distinct — strengthened by the domain descriptions of the three maps,
which the inductive step needs. -/
def cidInvariant (cid : Cid) : Prop :=
  cid.field_name_to_format_map.length = cid.field_names.length ∧
  cid.field_name_to_index_map.length = cid.field_names.length ∧
  cid.field_formats.length = cid.field_names.length ∧
  (∀ i, i < cid.field_names.length →
    alLookup (cid.field_names.getD i "") cid.field_name_to_index_map = some i) ∧
  cid.field_names.Nodup ∧
  cid.check_names.Nodup ∧
  cid.check_name_to_check_map.length = cid.check_names.length ∧
  (∀ n, (alLookup n cid.field_name_to_format_map).isSome ↔ n ∈ cid.field_names) ∧
  (∀ n, (alLookup n cid.field_name_to_index_map).isSome ↔ n ∈ cid.field_names) ∧
  (∀ n, (alLookup n cid.check_name_to_check_map).isSome ↔ n ∈ cid.check_names)

/-! ## Supporting lemmas -/

theorem set_cell_advance_cell (l : InputLocation) (n : Nat) :
    set_cell (advance_cell l) n = set_cell l n := rfl

theorem set_cell_cell (l : InputLocation) (n : Nat) : (set_cell l n).cell = n := rfl

theorem alLookup_nil {α : Type} (k : String) : alLookup k ([] : List (String × α)) = none := rfl

theorem alLookup_cons {α : Type} (k k' : String) (v : α) (m : List (String × α)) :
    alLookup k ((k', v) :: m) = if k' = k then some v else alLookup k m := by
  by_cases h : k' = k
  · simp [alLookup, List.find?, h]
  · have hb : (k' == k) = false := by simpa using h
    simp [alLookup, List.find?, hb, h]

theorem alLookup_append {α : Type} (k : String) (m m' : List (String × α)) :
    alLookup k (m ++ m') = (alLookup k m).or (alLookup k m') := by
  simp [alLookup, List.find?_append]
  cases List.find? (fun p => p.1 == k) m <;> simp [Option.or]

theorem dictSet_fresh {α : Type} (m : List (String × α)) (k : String) (v : α)
    (h : alLookup k m = none) : dictSet m k v = m ++ [(k, v)] := by
  have hf : (m.find? (fun p => p.1 == k)) = none := by
    simpa [alLookup] using h
  simp [dictSet, hf]

theorem alLookup_isSome_of_mem_names {α : Type} {k : String} {m : List (String × α)}
    (h : (alLookup k m).isSome) : ∃ v, alLookup k m = some v := by
  cases hm : alLookup k m with
  | none => rw [hm] at h; cases h
  | some v => exact ⟨v, rfl⟩

theorem nodup_append_singleton {l : List String} {a : String}
    (hl : l.Nodup) (ha : a ∉ l) : (l ++ [a]).Nodup := by
  simp [List.nodup_append, hl, ha]

/-- Inserting a fresh field preserves the schema-model invariant. -/
theorem cidInvariant_insertField {cid : Cid} {name : String} {ff : FieldFormat}
    {loc : InputLocation} (hinv : cidInvariant cid)
    (hfresh : alLookup name cid.field_name_to_format_map = none) :
    cidInvariant (insertField cid name ff loc) := by
  obtain ⟨h1, h2, h3, hidx, hnd, hcnd, hclen, hdomf, hdomi, hdomc⟩ := hinv
  have hmem : name ∉ cid.field_names := by
    intro hm
    have := (hdomf name).mpr hm
    rw [hfresh] at this
    cases this
  have hfreshi : alLookup name cid.field_name_to_index_map = none := by
    cases hli : alLookup name cid.field_name_to_index_map with
    | none => rfl
    | some v =>
      exact absurd ((hdomi name).mp (by rw [hli]; rfl)) hmem
  refine ⟨?_, ?_, ?_, ?_, ?_, ?_, ?_, ?_, ?_, ?_⟩
  · simp [insertField, dictSet_fresh _ _ _ hfresh, h1]
  · simp [insertField, dictSet_fresh _ _ _ hfreshi, h2]
  · simp [insertField, h3]
  · intro i hi
    simp only [insertField] at *
    rw [dictSet_fresh _ _ _ hfreshi]
    simp only [List.length_append, List.length_singleton] at hi
    rcases Nat.lt_or_ge i cid.field_names.length with hlt | hge
    · rw [List.getD_append _ _ _ _ hlt, alLookup_append]
      rw [hidx i hlt]
      simp [Option.or]
    · have hieq : i = cid.field_names.length := by omega
      subst hieq
      rw [List.getD_append_right _ _ _ _ (Nat.le_refl _), Nat.sub_self]
      have hg : ([name] : List String).getD 0 "" = name := rfl
      rw [hg, alLookup_append, hfreshi]
      simp [Option.or, alLookup_cons]
  · exact nodup_append_singleton hnd hmem
  · exact hcnd
  · exact hclen
  · intro n
    simp only [insertField]
    rw [dictSet_fresh _ _ _ hfresh, alLookup_append]
    constructor
    · intro hs
      cases hm : alLookup n cid.field_name_to_format_map with
      | some v =>
        exact List.mem_append_left _ ((hdomf n).mp (by rw [hm]; rfl))
      | none =>
        rw [hm] at hs
        simp only [Option.or] at hs
        rw [alLookup_cons] at hs
        by_cases he : name = n
        · subst he; exact List.mem_append_right _ (List.mem_singleton.mpr rfl)
        · rw [if_neg he] at hs; cases hs
    · intro hm
      rcases List.mem_append.mp hm with hm | hm
      · have := (hdomf n).mpr hm
        rcases alLookup_isSome_of_mem_names this with ⟨v, hv⟩
        rw [hv]; rfl
      · have he : n = name := List.mem_singleton.mp hm
        subst he
        rw [hfresh]
        simp [Option.or, alLookup_cons]
  · intro n
    simp only [insertField]
    rw [dictSet_fresh _ _ _ hfreshi, alLookup_append]
    constructor
    · intro hs
      cases hm : alLookup n cid.field_name_to_index_map with
      | some v =>
        exact List.mem_append_left _ ((hdomi n).mp (by rw [hm]; rfl))
      | none =>
        rw [hm] at hs
        simp only [Option.or] at hs
        rw [alLookup_cons] at hs
        by_cases he : name = n
        · subst he; exact List.mem_append_right _ (List.mem_singleton.mpr rfl)
        · rw [if_neg he] at hs; cases hs
    · intro hm
      rcases List.mem_append.mp hm with hm | hm
      · have := (hdomi n).mpr hm
        rcases alLookup_isSome_of_mem_names this with ⟨v, hv⟩
        rw [hv]; rfl
      · have he : n = name := List.mem_singleton.mp hm
        subst he
        rw [hfreshi]
        simp [Option.or, alLookup_cons]
  · intro n
    simpa [insertField] using hdomc n

/-- Inserting a fresh check preserves the schema-model invariant. -/
theorem cidInvariant_insertCheck {cid : Cid} {desc : String} {chk : Check}
    {loc : InputLocation} (hinv : cidInvariant cid)
    (hfresh : alLookup desc cid.check_name_to_check_map = none) :
    cidInvariant (insertCheck cid desc chk loc) := by
  obtain ⟨h1, h2, h3, hidx, hnd, hcnd, hclen, hdomf, hdomi, hdomc⟩ := hinv
  have hmem : desc ∉ cid.check_names := by
    intro hm
    have := (hdomc desc).mpr hm
    rw [hfresh] at this
    cases this
  refine ⟨h1, h2, h3, ?_, hnd, ?_, ?_, hdomf, hdomi, ?_⟩
  · intro i hi
    simpa [insertCheck] using hidx i hi
  · exact nodup_append_singleton hcnd hmem
  · simp [insertCheck, dictSet_fresh _ _ _ hfresh, hclen]
  · intro n
    simp only [insertCheck]
    rw [dictSet_fresh _ _ _ hfresh, alLookup_append]
    constructor
    · intro hs
      cases hm : alLookup n cid.check_name_to_check_map with
      | some v =>
        exact List.mem_append_left _ ((hdomc n).mp (by rw [hm]; rfl))
      | none =>
        rw [hm] at hs
        simp only [Option.or] at hs
        rw [alLookup_cons] at hs
        by_cases he : desc = n
        · subst he; exact List.mem_append_right _ (List.mem_singleton.mpr rfl)
        · rw [if_neg he] at hs; cases hs
    · intro hm
      rcases List.mem_append.mp hm with hm | hm
      · have := (hdomc n).mpr hm
        rcases alLookup_isSome_of_mem_names this with ⟨v, hv⟩
        rw [hv]; rfl
      · have he : n = desc := List.mem_singleton.mp hm
        subst he
        rw [hfresh]
        simp [Option.or, alLookup_cons]

/-- Every successful `add_field_format` is an `insertField` of a field
name that was not yet defined. -/
theorem add_field_format_ok_shape {F : Factories} {cid : Cid} {items : List String} {cid' : Cid}
    (hok : add_field_format F cid items = Except.ok cid') :
    ∃ name ff loc, alLookup name cid.field_name_to_format_map = none ∧
      cid' = insertField cid name ff loc := by
  unfold add_field_format at hok
  cases hdf : cid.data_format <;> simp only [hdf] at hok
  case none => exact Except.noConfusion hok
  case some df =>
  by_cases h1 : 1 ≤ items.length
  case neg => rw [if_neg h1] at hok; exact Except.noConfusion hok
  case pos =>
  rw [if_pos h1] at hok
  cases hname : validated_field_name (items.getD 0 "") cid.location <;> simp only [hname] at hok
  case error e => exact Except.noConfusion hok
  case ok field_name =>
  cases hflag : (if 3 ≤ items.length then parse_empty_flag (items.getD 2 "") else Except.ok false)
    <;> simp only [hflag] at hok
  case error m => exact Except.noConfusion hok
  case ok is_empty =>
  cases htype : (if 5 ≤ items.length then parse_field_type (items.getD 4 "") else Except.ok none)
    <;> simp only [htype] at hok
  case error m => exact Except.noConfusion hok
  case ok field_type_opt =>
  cases hcls : create_field_format_class F (defaultFieldType field_type_opt)
    <;> simp only [hcls] at hok
  case error e => exact Except.noConfusion hok
  case ok field_class =>
  cases hmk : F.mkFieldFormat field_class field_name is_empty
      (if 4 ≤ items.length then some (pyStrip (items.getD 3 "")) else none)
      (if 6 ≤ items.length then pyStrip (items.getD 5 "") else "") df
    <;> simp only [hmk] at hok
  case error e => exact Except.noConfusion hok
  case ok field_format =>
  cases halu : alLookup field_name cid.field_name_to_format_map <;> simp only [halu] at hok
  case some v => exact Except.noConfusion hok
  case none =>
  split at hok
  · exact Except.noConfusion hok
  · split at hok
    · exact Except.noConfusion hok
    · exact ⟨field_name, _, _, halu, (Except.ok.inj hok).symm⟩

/-- Every successful `add_check` is an `insertCheck` of a description
that was not yet used. -/
theorem add_check_ok_shape {F : Factories} {cid : Cid} {items : List String} {cid' : Cid}
    (hok : add_check F cid items = Except.ok cid') :
    ∃ desc chk loc, alLookup desc cid.check_name_to_check_map = none ∧
      cid' = insertCheck cid desc chk loc := by
  simp only [add_check] at hok
  repeat' split at hok
  all_goals try exact Except.noConfusion hok
  all_goals (injection hok with h; exact ⟨_, _, _, by assumption, h.symm⟩)

/-- The empty, freshly constructed schema model satisfies the invariant,
as does the state right after the first data-format row. -/
theorem cidInvariant_cidDelimited : cidInvariant cidDelimited := by
  refine ⟨rfl, rfl, rfl, ?_, ?_, ?_, rfl, ?_, ?_, ?_⟩ <;>
    simp [cidDelimited, cidNew, alLookup]

/-- The row used by the invariant-preservation witness. -/
def c4Items : List String := ["id", "", "", "", "", ""]

/-- The schema state produced by the invariant-preservation witness. -/
def c4Result : Cid :=
  match add_field_format F0 cidDelimited c4Items with
  | .ok c => c
  | .error _ => cidNew

/-- C4: after every mutation of the schema model — each accepted field
row (`add_field_format`) and each accepted check row (`add_check`) — the
number of fields equals the size of the name-to-format map and of the
name-to-index map, the stored index of every field name is its position
in the ordered field sequence, field names are pairwise distinct, and
check descriptions are pairwise distinct. -/
theorem schema_invariants_preserved :
    (∀ (F : Factories) (cid : Cid) (items : List String) (cid' : Cid),
      cidInvariant cid → add_field_format F cid items = Except.ok cid' → cidInvariant cid') ∧
    (∀ (F : Factories) (cid : Cid) (items : List String) (cid' : Cid),
      cidInvariant cid → add_check F cid items = Except.ok cid' → cidInvariant cid') := by
  constructor
  · intro F cid items cid' hinv hok
    obtain ⟨name, ff, loc, hfresh, rfl⟩ := add_field_format_ok_shape hok
    exact cidInvariant_insertField hinv hfresh
  · intro F cid items cid' hinv hok
    obtain ⟨desc, chk, loc, hfresh, rfl⟩ := add_check_ok_shape hok
    exact cidInvariant_insertCheck hinv hfresh

/-- Witness for C4: the invariant-preservation theorem applied to the
concrete provider set, the one-data-format state and a concrete field
row. -/
theorem schema_invariants_preserved_witness : cidInvariant c4Result :=
  schema_invariants_preserved.1 F0 cidDelimited c4Items c4Result
    cidInvariant_cidDelimited rfl

/-- Reduction of `add_field_format` once the data format exists, the row
has the 6 cells produced by `read`, and name, empty flag, type, class
resolution and format construction all succeed: what remains is the
duplicate-name check, the example validation and the fixed-length
validation, followed by the insertion. -/
theorem add_field_format_reduce (F : Factories) (cid : Cid) (items : List String)
    (df : DataFormat) (name : String) (b : Bool) (ft : Option String) (cls : String)
    (ff : FieldFormat)
    (hdf : cid.data_format = some df)
    (hlen : items.length = 6)
    (hname : validated_field_name (items.getD 0 "") cid.location = .ok name)
    (hflag : parse_empty_flag (items.getD 2 "") = .ok b)
    (htype : parse_field_type (items.getD 4 "") = .ok ft)
    (hcls : create_field_format_class F (defaultFieldType ft) = .ok cls)
    (hmk : F.mkFieldFormat cls name b (some (pyStrip (items.getD 3 "")))
      (pyStrip (items.getD 5 "")) df = .ok ff) :
    add_field_format F cid items =
      (match alLookup name cid.field_name_to_format_map with
       | some _ =>
         .error (.fieldSyntaxError ("field name must be used for only one field: " ++ name)
           (some (set_cell cid.location 1)))
       | none =>
         match (if items.getD 1 "" ≠ "" then F.checkExample ff (items.getD 1 "") else .ok ()) with
         | .error e => .error (wrapExampleError name (set_cell cid.location 2) e)
         | .ok () =>
           let ff' := if items.getD 1 "" ≠ "" then
               { ff with example_text := some (items.getD 1 "") } else ff
           match (if df.format = FORMAT_FIXED then
               validate_fixed_length name ff' (set_cell cid.location 4)
             else Except.ok ()) with
           | .error e => .error e
           | .ok () => .ok (insertField cid name ff' cid.location)) := by
  unfold add_field_format
  simp only [hdf, hlen]
  norm_num
  simp only [List.getD_eq_getElem?_getD] at hname hflag htype hmk
  simp only [hname, hflag, htype, hcls, hmk, set_cell_advance_cell]
  rfl

/-- C5: a field definition row is never accepted before a data-format
row has been seen — with no data format, `add_field_format` raises a
located `CidSyntaxError` and the schema model gains no field. -/
theorem field_row_requires_data_format (F : Factories) (cid : Cid) (items : List String)
    (h : cid.data_format = none) :
    add_field_format F cid items =
      .error (.cidSyntaxError "data format must be specified before first field"
        (some cid.location)) := by
  unfold add_field_format
  simp only [h]

/-- Witness for C5: the fresh schema model rejects a field row. -/
theorem field_row_requires_data_format_witness :
    add_field_format F0 cidNew ["id", "", "", "", "", ""] =
      .error (.cidSyntaxError "data format must be specified before first field"
        (some cidNew.location)) :=
  field_row_requires_data_format F0 cidNew ["id", "", "", "", "", ""] rfl

/-- C7: a field row whose (otherwise valid) name equals the name of an
already-defined field raises a `FieldSyntaxError` whose location points
at cell 1, and the duplicate field is not added. -/
theorem duplicate_field_name_rejected (F : Factories) (cid : Cid) (items : List String)
    (df : DataFormat) (name : String) (b : Bool) (ft : Option String) (cls : String)
    (ff f0 : FieldFormat)
    (hdf : cid.data_format = some df)
    (hlen : items.length = 6)
    (hname : validated_field_name (items.getD 0 "") cid.location = .ok name)
    (hflag : parse_empty_flag (items.getD 2 "") = .ok b)
    (htype : parse_field_type (items.getD 4 "") = .ok ft)
    (hcls : create_field_format_class F (defaultFieldType ft) = .ok cls)
    (hmk : F.mkFieldFormat cls name b (some (pyStrip (items.getD 3 "")))
      (pyStrip (items.getD 5 "")) df = .ok ff)
    (hdup : alLookup name cid.field_name_to_format_map = some f0) :
    add_field_format F cid items =
      .error (.fieldSyntaxError ("field name must be used for only one field: " ++ name)
        (some (set_cell cid.location 1))) ∧
    (set_cell cid.location 1).cell = 1 := by
  rw [add_field_format_reduce F cid items df name b ft cls ff hdf hlen hname hflag htype hcls hmk]
  rw [hdup]
  exact ⟨rfl, rfl⟩

/-- Witness for C7: adding a second field named `id` to a schema that
already defines `id` fails at cell 1. -/
theorem duplicate_field_name_rejected_witness :
    add_field_format F0 cidOneField ["id", "", "", "", "", ""] =
      .error (.fieldSyntaxError ("field name must be used for only one field: " ++ "id")
        (some (set_cell cidOneField.location 1))) ∧
    (set_cell cidOneField.location 1).cell = 1 :=
  duplicate_field_name_rejected F0 cidOneField ["id", "", "", "", "", ""]
    ⟨"delimited", []⟩ "id" false none "TextFieldFormat" ffId ffId
    rfl rfl rfl rfl rfl rfl rfl rfl

/-- Characterization of the fixed-format length validation: a single
closed interval with a bound of at least 1 passes; every other shape of
the resolved length (absent, unbounded, a proper range, several
intervals, or a bound below 1) fails with a `FieldSyntaxError` at the
given location. -/
theorem validate_fixed_length_spec (name : String) (ff : FieldFormat) (loc : InputLocation) :
    ((∃ n : Int, 1 ≤ n ∧ ff.lengthItems = [(some n, some n)]) →
      validate_fixed_length name ff loc = .ok ()) ∧
    ((¬ ∃ n : Int, 1 ≤ n ∧ ff.lengthItems = [(some n, some n)]) →
      ∃ msg, validate_fixed_length name ff loc = .error (.fieldSyntaxError msg (some loc))) := by
  constructor
  · rintro ⟨n, hn, hitems⟩
    have hnlt : ¬(n < 1) := by omega
    simp [validate_fixed_length, hitems, hnlt]
  · intro hne
    unfold validate_fixed_length
    rcases hitems : ff.lengthItems with _ | ⟨⟨lo, hi⟩, rest⟩
    · exact ⟨_, rfl⟩
    · cases rest with
      | cons p rest' => exact ⟨_, rfl⟩
      | nil =>
        by_cases hequ : lo = hi
        · subst hequ
          cases lo with
          | none => exact ⟨_, rfl⟩
          | some v =>
            have hvlt : v < 1 := by
              by_contra hv
              exact hne ⟨v, by omega, hitems⟩
            exact ⟨"length of field " ++ pyRepr name
              ++ " for fixed data format must be at least 1 but is : " ++ ff.length_text,
              by simp [hvlt]⟩
        · simp only [List.isEmpty_nil, if_true]
          rw [if_neg hequ]
          exact ⟨_, rfl⟩

/-- C2: under the fixed data format, a field definition row (that passes
name, empty-flag, type, construction, duplicate and example validation)
is accepted exactly when the constructed field format resolves its
length to a single closed interval with a bound of at least 1; any other
shape raises a `FieldSyntaxError` whose location points at cell 4, and
the field is not added. -/
theorem fixed_format_field_length (F : Factories) (cid : Cid) (items : List String)
    (df : DataFormat) (name : String) (b : Bool) (ft : Option String) (cls : String)
    (ff : FieldFormat)
    (hdf : cid.data_format = some df)
    (hlen : items.length = 6)
    (hname : validated_field_name (items.getD 0 "") cid.location = .ok name)
    (hflag : parse_empty_flag (items.getD 2 "") = .ok b)
    (htype : parse_field_type (items.getD 4 "") = .ok ft)
    (hcls : create_field_format_class F (defaultFieldType ft) = .ok cls)
    (hmk : F.mkFieldFormat cls name b (some (pyStrip (items.getD 3 "")))
      (pyStrip (items.getD 5 "")) df = .ok ff)
    (hfix : df.format = "fixed")
    (hdup : alLookup name cid.field_name_to_format_map = none)
    (hex : (if items.getD 1 "" ≠ "" then F.checkExample ff (items.getD 1 "")
      else Except.ok ()) = .ok ()) :
    ((∃ n : Int, 1 ≤ n ∧ ff.lengthItems = [(some n, some n)]) →
      ∃ cid', add_field_format F cid items = .ok cid' ∧
        cid'.field_names = cid.field_names ++ [name]) ∧
    ((¬ ∃ n : Int, 1 ≤ n ∧ ff.lengthItems = [(some n, some n)]) →
      ∃ msg, add_field_format F cid items =
        .error (.fieldSyntaxError msg (some (set_cell cid.location 4))) ∧
        (set_cell cid.location 4).cell = 4) := by
  rw [add_field_format_reduce F cid items df name b ft cls ff hdf hlen hname hflag htype hcls hmk,
    hdup, hex]
  simp only [FORMAT_FIXED, hfix, eq_self_iff_true, if_true]
  have hLI : (if items.getD 1 "" ≠ "" then
      { ff with example_text := some (items.getD 1 "") } else ff).lengthItems
      = ff.lengthItems := by
    split <;> rfl
  have hLT : (if items.getD 1 "" ≠ "" then
      { ff with example_text := some (items.getD 1 "") } else ff).length_text
      = ff.length_text := by
    split <;> rfl
  constructor
  · intro hshape
    have hv := (validate_fixed_length_spec name
      (if items.getD 1 "" ≠ "" then { ff with example_text := some (items.getD 1 "") } else ff)
      (set_cell cid.location 4)).1 (by rw [hLI]; exact hshape)
    rw [hv]
    exact ⟨_, rfl, rfl⟩
  · intro hne
    obtain ⟨msg, hv⟩ := (validate_fixed_length_spec name
      (if items.getD 1 "" ≠ "" then { ff with example_text := some (items.getD 1 "") } else ff)
      (set_cell cid.location 4)).2 (by rw [hLI]; exact hne)
    rw [hv]
    exact ⟨msg, rfl, rfl⟩

/-- The field format the concrete providers construct for the witness
row `f id, , , 4, Integer`. -/
def ff4 : FieldFormat :=
  { field_name := "id", is_allowed_to_be_empty := false,
    lengthItems := [(some 4, some 4)], length_text := "4", rule := "",
    example_text := none }

/-- Witness for C2: under the fixed format the row `f id, , , 4, Integer`
is accepted and appends the field `id`. -/
theorem fixed_format_field_length_witness :
    ∃ cid', add_field_format F0 cidFixed ["id", "", "", "4", "Integer", ""] = .ok cid' ∧
      cid'.field_names = cidFixed.field_names ++ ["id"] :=
  (fixed_format_field_length F0 cidFixed ["id", "", "", "4", "Integer", ""]
    ⟨"fixed", []⟩ "id" false (some "Integer") "IntegerFieldFormat" ff4
    rfl rfl rfl rfl rfl rfl rfl rfl rfl rfl).1
    ⟨4, by norm_num, rfl⟩

/-- C1: on a schema with the single field `id`, `field_value_for` with a
row of matching length does not return the row value — the source calls
the nonexistent method `get_field_name_index` (the defined accessor is
`field_index`), so Python raises `AttributeError`; only the
length-mismatch branch behaves as documented, raising a
`DataFormatValueError` that carries the freshly captured caller
location. -/
theorem field_value_for_attribute_error :
    field_value_for cidOneField "id" ["x"] =
      .error (.attributeError "get_field_name_index") ∧
    field_value_for cidOneField "id" ["x", "y"] =
      .error (.dataFormatValueError
        ("row must have 1 items but has 2: " ++ pyListRepr ["x", "y"])
        (some callerInputLocation)) ∧
    field_index cidOneField "id" = .ok 0 :=
  ⟨rfl, rfl, rfl⟩

/-- C9: a check row whose last padded cell (index 5) resolves in the
check registry sets `rule_index` to 6, the full row length, and the
unguarded `items[rule_index]` fails compilation with an `IndexError`
instead of any located `CheckSyntaxError`. -/
theorem check_rule_index_out_of_range :
    read F0 cidNew "cid" [["c", "desc1", "", "", "", "", "IsUnique"]] =
      .error .indexError ∧
    add_check F0 cidDelimited ["desc1", "", "", "", "", "IsUnique"] =
      .error .indexError :=
  ⟨rfl, rfl⟩

/-- C6: a check row whose description equals that of an already-added
check (once type scan, rule extraction and construction succeed) raises
a `CheckSyntaxError` whose supplementary location is the stored location
of the original check definition, and the duplicate is not added. -/
theorem duplicate_check_description (F : Factories) (cid : Cid) (items : List String)
    (ct : String) (ri : Nat) (r cls : String) (chk existing : Check)
    (hlen2 : ¬ items.length < 2)
    (hscan : scanCheckType F items = (some ct, ri))
    (hrule : (if 3 ≤ items.length then pyGetStr items ri else Except.ok "") = .ok r)
    (hcls : create_check_class F ct = .ok cls)
    (hmk : F.mkCheck cls (items.getD 0 "") r cid.field_names cid.location = .ok chk)
    (hdup : alLookup (items.getD 0 "") cid.check_name_to_check_map = some existing) :
    add_check F cid items =
      .error (.checkSyntaxError
        ("check description must be used only once: " ++ pyRepr (items.getD 0 ""))
        (some (set_cell cid.location 1))
        (some ("initial declaration", existing.location))) := by
  unfold add_check
  rw [if_neg hlen2]
  simp only [hscan, hrule, hcls, hmk, hdup]

/-- Witness for C6: a second check row with description `desc1` is
rejected, the supplementary location pointing at the first definition. -/
theorem duplicate_check_description_witness :
    add_check F0 cidOneCheck ["desc1", "", "IsUnique", "id", "", ""] =
      .error (.checkSyntaxError
        ("check description must be used only once: " ++ pyRepr "desc1")
        (some (set_cell cidOneCheck.location 1))
        (some ("initial declaration", checkDesc1.location))) :=
  duplicate_check_description F0 cidOneCheck ["desc1", "", "IsUnique", "id", "", ""]
    "IsUnique" 3 "id" "IsUniqueCheck" checkDesc1 checkDesc1
    (by norm_num) rfl rfl rfl rfl rfl

/-- The check-type scan loop returns the last resolving index: fold form,
by induction on the scanned range. -/
theorem scan_fold_last (F : Factories) (items : List String) (i : Nat) :
    ∀ (k : Nat) (acc : Option String × Nat), 1 ≤ i → i ≤ k →
    (items.getD i "" ++ "Check") ∈ F.checkClassNames →
    (∀ j, i < j → j ≤ k → (items.getD j "" ++ "Check") ∉ F.checkClassNames) →
    (List.range' 1 k).foldl
      (fun acc i => if (items.getD i "" ++ "Check") ∈ F.checkClassNames
        then (some (items.getD i ""), i + 1) else acc) acc
      = (some (items.getD i ""), i + 1) := by
  intro k
  induction k with
  | zero => intro acc h1 h2 _ _; omega
  | succ k ih =>
    intro acc hi1 hik hres hlast
    rw [List.range'_concat, List.foldl_append, List.foldl_cons, List.foldl_nil]
    by_cases hieq : i = 1 + 1 * k
    · rw [← hieq, if_pos hres]
    · have hnot : (items.getD (1 + 1 * k) "" ++ "Check") ∉ F.checkClassNames :=
        hlast (1 + 1 * k) (by omega) (by omega)
      rw [if_neg hnot]
      exact ih acc hi1 (by omega) hres (fun j h1 h2 => hlast j h1 (by omega))

/-- The check-type scan loop keeps its initial value when no column
resolves: fold form. -/
theorem scan_fold_none (F : Factories) (items : List String) :
    ∀ (k : Nat) (acc : Option String × Nat),
    (∀ j, 1 ≤ j → j ≤ k → (items.getD j "" ++ "Check") ∉ F.checkClassNames) →
    (List.range' 1 k).foldl
      (fun acc i => if (items.getD i "" ++ "Check") ∈ F.checkClassNames
        then (some (items.getD i ""), i + 1) else acc) acc
      = acc := by
  intro k
  induction k with
  | zero => intro acc _; rfl
  | succ k ih =>
    intro acc hnone
    rw [List.range'_concat, List.foldl_append, List.foldl_cons, List.foldl_nil]
    rw [if_neg (hnone (1 + 1 * k) (by omega) (by omega))]
    exact ih acc (fun j h1 h2 => hnone j h1 (by omega))

/-- The check-type scan selects the rightmost resolving column, recording
the following index as the rule index. -/
theorem scanCheckType_eq_last (F : Factories) (items : List String) (i : Nat)
    (hi1 : 1 ≤ i) (hi2 : i < items.length)
    (hres : (items.getD i "" ++ "Check") ∈ F.checkClassNames)
    (hlast : ∀ j, i < j → j < items.length →
      (items.getD j "" ++ "Check") ∉ F.checkClassNames) :
    scanCheckType F items = (some (items.getD i ""), i + 1) := by
  unfold scanCheckType
  exact scan_fold_last F items i (items.length - 1) (none, 2) hi1 (by omega) hres
    (fun j h1 h2 => hlast j h1 (by omega))

/-- The check-type scan keeps `(None, 2)` when no column resolves. -/
theorem scanCheckType_eq_none (F : Factories) (items : List String)
    (hnone : ∀ j, 1 ≤ j → j < items.length →
      (items.getD j "" ++ "Check") ∉ F.checkClassNames) :
    scanCheckType F items = (none, 2) := by
  unfold scanCheckType
  exact scan_fold_none F items (items.length - 1) (none, 2)
    (fun j h1 h2 => hnone j h1 (by omega))

/-- C3 counterexample: on the 3-column check row `c desc1, x, IsUnique`
(with `IsUniqueCheck` registered and `xCheck` not), the rightmost
resolving column is the last one; instead of taking the single column
immediately following it as the rule, `add_check` fails with an
unlocated `IndexError` — so it neither extracts a rule nor raises a
`CheckSyntaxError`. -/
theorem check_type_scan_counterexample :
    add_check F0 cidDelimited ["desc1", "x", "IsUnique"] = .error .indexError := rfl

/-- C3 (amended): for every check row with at least two columns, the
compiler selects as the check type the last (rightmost) column whose
value suffixed with `Check` resolves in the check registry.  When the
row has at least three columns and a column follows the type column,
exactly that single following column becomes the rule; with exactly two
columns the rule is empty; when the type column is the last column of a
row with at least three columns, an unguarded `IndexError` escapes
instead.  If no column resolves, a `CheckSyntaxError` is raised. -/
theorem check_type_scan_amended (F : Factories) (cid : Cid) (items : List String) :
    (∀ (i : Nat) (cls : String),
      1 ≤ i → i < items.length →
      (items.getD i "" ++ "Check") ∈ F.checkClassNames →
      (∀ j ∈ List.range' (i + 1) (items.length - (i + 1)),
        (items.getD j "" ++ "Check") ∉ F.checkClassNames) →
      create_check_class F (items.getD i "") = .ok cls →
      (∀ d r fns loc, F.mkCheck cls d r fns loc = .ok ⟨cls, d, r, fns, loc⟩) →
      alLookup (items.getD 0 "") cid.check_name_to_check_map = none →
      ((3 ≤ items.length → i + 1 < items.length →
        add_check F cid items = .ok (insertCheck cid (items.getD 0 "")
          ⟨cls, items.getD 0 "", items.getD (i + 1) "", cid.field_names, cid.location⟩
          (set_cell cid.location 1))) ∧
       (items.length = 2 →
        add_check F cid items = .ok (insertCheck cid (items.getD 0 "")
          ⟨cls, items.getD 0 "", "", cid.field_names, cid.location⟩
          (set_cell cid.location 1))) ∧
       (3 ≤ items.length → i + 1 = items.length →
        add_check F cid items = .error .indexError))) ∧
    ((∀ j ∈ List.range' 1 (items.length - 1),
        (items.getD j "" ++ "Check") ∉ F.checkClassNames) →
      2 ≤ items.length →
      add_check F cid items = .error (.checkSyntaxError
        ("check type should be one of " ++ pyListRepr F.checkClassNames ++ " but is "
          ++ pyListRepr ((items.drop 1).take (items.length - 3)))
        (some cid.location) none)) := by
  constructor
  · intro i cls hi1 hi2 hres hlast hcls hfac hdup
    have hlast' : ∀ j, i < j → j < items.length →
        (items.getD j "" ++ "Check") ∉ F.checkClassNames := by
      intro j h1 h2
      exact hlast j (List.mem_range'_1.mpr ⟨by omega, by omega⟩)
    have hscan := scanCheckType_eq_last F items i hi1 hi2 hres hlast'
    refine ⟨?_, ?_, ?_⟩
    · intro h3 hilt
      have hget : (if 3 ≤ items.length then pyGetStr items (i + 1) else Except.ok "")
          = .ok (items.getD (i + 1) "") := by
        rw [if_pos h3]
        unfold pyGetStr
        rw [dif_pos hilt]
        simp [List.getD_eq_getElem _ _ hilt, List.getElem?_eq_getElem hilt]
      unfold add_check
      rw [if_neg (by omega)]
      simp only [hscan, hget, hcls, hfac, hdup]
    · intro h2
      have hget : (if 3 ≤ items.length then pyGetStr items (i + 1) else Except.ok "")
          = .ok "" := by rw [if_neg (by omega)]
      unfold add_check
      rw [if_neg (by omega)]
      simp only [hscan, hget, hcls, hfac, hdup]
    · intro h3 hieq
      have hget : (if 3 ≤ items.length then pyGetStr items (i + 1) else Except.ok "")
          = .error .indexError := by
        rw [if_pos h3]
        unfold pyGetStr
        rw [dif_neg (by omega)]
      unfold add_check
      rw [if_neg (by omega)]
      simp only [hscan, hget]
  · intro hnone h2
    have hnone' : ∀ j, 1 ≤ j → j < items.length →
        (items.getD j "" ++ "Check") ∉ F.checkClassNames := by
      intro j h1 hj
      exact hnone j (List.mem_range'_1.mpr ⟨by omega, by omega⟩)
    have hscan := scanCheckType_eq_none F items hnone'
    unfold add_check
    rw [if_neg (by omega)]
    simp only [hscan]

/-- Witness for C3 (amended): the check row `c desc1, , IsUnique, id`
(padded to six cells) resolves its type at column 2 and takes the
single following column `id` as the rule. -/
theorem check_type_scan_amended_witness :
    add_check F0 cidDelimited ["desc1", "", "IsUnique", "id", "", ""] =
      .ok (insertCheck cidDelimited "desc1"
        ⟨"IsUniqueCheck", "desc1", "id", cidDelimited.field_names, cidDelimited.location⟩
        (set_cell cidDelimited.location 1)) :=
  ((check_type_scan_amended F0 cidDelimited ["desc1", "", "IsUnique", "id", "", ""]).1
    2 "IsUniqueCheck" (by norm_num) (by norm_num) (by decide) (by decide)
    rfl (fun d r fns loc => rfl) rfl).1 (by norm_num) (by norm_num)

/-- The dot-splitting walk never produces an empty list. -/
theorem splitDotAux_ne_nil : ∀ (cs acc : List Char), splitDotAux cs acc ≠ [] := by
  intro cs
  induction cs with
  | nil => intro acc; simp [splitDotAux]
  | cons c cs ih =>
    intro acc
    unfold splitDotAux
    by_cases h : (c == '.') = true
    · simp [h]
    · simp only [Bool.not_eq_true] at h
      simp [h]
      exact ih (c :: acc)

/-- `getLastD` of a nonempty list does not depend on the default. -/
theorem getLastD_eq_of_ne_nil {α : Type} :
    ∀ (l : List α) (a b : α), l ≠ [] → l.getLastD a = l.getLastD b := by
  intro l
  induction l with
  | nil => intro a b h; exact absurd rfl h
  | cons x l ih =>
    intro a b _
    rw [List.getLastD_cons, List.getLastD_cons]

/-- The last segment produced by the dot-splitting walk contains no dot,
provided the accumulator contains none. -/
theorem splitDotAux_last_no_dot :
    ∀ (cs acc : List Char), '.' ∉ acc →
      '.' ∉ ((splitDotAux cs acc).getLastD "").data := by
  intro cs
  induction cs with
  | nil =>
    intro acc hacc
    simp only [splitDotAux, List.getLastD_cons, List.getLastD_nil]
    simpa using fun h => hacc (List.mem_reverse.mp h)
  | cons c cs ih =>
    intro acc hacc
    unfold splitDotAux
    by_cases h : (c == '.') = true
    · rw [if_pos h, List.getLastD_cons,
        getLastD_eq_of_ne_nil _ _ "" (splitDotAux_ne_nil cs [])]
      exact ih [] (by simp)
    · simp only [Bool.not_eq_true] at h
      rw [if_neg (by simp [h])]
      refine ih (c :: acc) ?_
      intro hmem
      rcases List.mem_cons.mp hmem with hmem | hmem
      · exact absurd (beq_iff_eq.mpr hmem.symm) (by simp [h])
      · exact hacc hmem

/-- The final dot-separated segment of a qualifier contains no dot. -/
theorem splitDot_last_no_dot (s : String) : '.' ∉ ((splitDot s).getLastD "").data :=
  splitDotAux_last_no_dot s.data [] (by simp)

/-- Splitting a dot-free string gives the string itself: fold form. -/
theorem splitDotAux_no_dot :
    ∀ (cs acc : List Char), '.' ∉ cs →
      splitDotAux cs acc = [String.mk (acc.reverse ++ cs)] := by
  intro cs
  induction cs with
  | nil => intro acc _; simp [splitDotAux]
  | cons c cs ih =>
    intro acc hno
    have hc : ¬((c == '.') = true) := by
      simp only [beq_iff_eq]
      intro h
      exact hno (by simp [h])
    unfold splitDotAux
    rw [if_neg hc, ih (c :: acc) (fun h => hno (List.mem_cons_of_mem _ h))]
    simp

/-- Splitting a dot-free string gives the one-element list of itself. -/
theorem splitDot_of_no_dot (s : String) (h : '.' ∉ s.data) : splitDot s = [s] := by
  unfold splitDot
  rw [splitDotAux_no_dot s.data [] h]
  simp

/-- C8 counterexample: resolving the dotted qualifier `pkg.Nope` and
resolving its final segment `Nope` against the same registry do not
yield the same outcome — both fail, but the raised errors differ because
the message echoes the original qualifier. -/
theorem dotted_type_resolution_counterexample :
    create_class ["TextFieldFormat"] "pkg.Nope" "FieldFormat" "field"
        (fun m => CidError.fieldSyntaxError m none) ≠
      create_class ["TextFieldFormat"] "Nope" "FieldFormat" "field"
        (fun m => CidError.fieldSyntaxError m none) := by
  decide

/-- C8 (amended): type-name resolution depends only on the final
dot-separated segment of the qualifier up to the echoed qualifier text:
for every registry (hence for both capability families), resolution of a
qualifier and of its final segment yield the same resolved class when
the lookup succeeds; when it fails, both raise the error built by the
same constructor, listing the same known names sorted and human-joined
and naming the same related class, the echoed qualifier being the only
difference. -/
theorem dotted_type_resolution_amended (m : List String) (q app tn : String)
    (mkErr : String → CidError) :
    (((splitDot q).getLastD "" ++ app) ∈ m →
      create_class m q app tn mkErr = .ok ((splitDot q).getLastD "" ++ app) ∧
      create_class m ((splitDot q).getLastD "") app tn mkErr
        = .ok ((splitDot q).getLastD "" ++ app)) ∧
    (((splitDot q).getLastD "" ++ app) ∉ m →
      create_class m q app tn mkErr
        = .error (mkErr (unknown_class_message m q app tn)) ∧
      create_class m ((splitDot q).getLastD "") app tn mkErr
        = .error (mkErr (unknown_class_message m ((splitDot q).getLastD "") app tn))) := by
  have hlast : (splitDot ((splitDot q).getLastD "")).getLastD "" = (splitDot q).getLastD "" := by
    rw [splitDot_of_no_dot _ (splitDot_last_no_dot q)]
    rfl
  constructor
  · intro hmem
    constructor
    · unfold create_class
      rw [if_pos hmem]
    · unfold create_class
      rw [hlast, if_pos hmem]
  · intro hmem
    constructor
    · unfold create_class
      rw [if_neg hmem]
    · unfold create_class
      rw [hlast, if_neg hmem]

/-- Witness for C8 (amended): `pkg.Text` and `Text` resolve to the same
field-format class. -/
theorem dotted_type_resolution_amended_witness :
    create_class ["TextFieldFormat"] "pkg.Text" "FieldFormat" "field"
        (fun m => CidError.fieldSyntaxError m none) = .ok "TextFieldFormat" ∧
    create_class ["TextFieldFormat"] "Text" "FieldFormat" "field"
        (fun m => CidError.fieldSyntaxError m none) = .ok "TextFieldFormat" :=
  (dotted_type_resolution_amended ["TextFieldFormat"] "pkg.Text" "FieldFormat" "field"
    (fun m => CidError.fieldSyntaxError m none)).1 (by decide)

theorem exceptBind_ok {ε α β : Type} (a : α) (f : α → Except ε β) :
    (Except.ok a >>= f) = f a := rfl

theorem exceptBind_error {ε α β : Type} (e : ε) (f : α → Except ε β) :
    ((Except.error e : Except ε α) >>= f) = Except.error e := rfl

/-- Rows agreeing on their first six cells after the tag pad to the same
row data. -/
theorem padRow_congr {r1 r2 : List String} (h : r1.take 6 = r2.take 6) :
    padRow r1 = padRow r2 := by
  have hl : 6 ⊓ r1.length = 6 ⊓ r2.length := by
    have := congrArg List.length h
    simpa [List.length_take] using this
  unfold padRow
  rw [List.take_append_eq_append_take, List.take_append_eq_append_take, h]
  have : 6 - r1.length = 6 - r2.length := by omega
  rw [this]

/-- Rows agreeing on their first seven cells (tag plus six data cells)
are processed identically. -/
theorem processRow_congr (F : Factories) (cid : Cid) {r1 r2 : List String}
    (h : r1.take 7 = r2.take 7) : processRow F cid r1 = processRow F cid r2 := by
  cases r1 with
  | nil =>
    cases r2 with
    | nil => rfl
    | cons t2 rest2 => simp [List.take_succ_cons] at h
  | cons t1 rest1 =>
    cases r2 with
    | nil => simp [List.take_succ_cons] at h
    | cons t2 rest2 =>
      simp only [List.take_succ_cons, List.cons.injEq] at h
      obtain ⟨rfl, hr⟩ := h
      simp only [processRow, dispatchRow]
      rw [padRow_congr hr]

/-- C10: `read` dispatches on exactly the first six cells after the tag
cell of every row — shorter rows are right-padded with empty strings and
longer rows truncated — so cells at index 7 and beyond of a raw row are
discarded and can never affect the compiled schema model or any raised
error. -/
theorem read_ignores_trailing_cells (F : Factories) (cid : Cid) (p : String)
    (rows1 rows2 : List (List String))
    (h : rows1.map (fun r => r.take 7) = rows2.map (fun r => r.take 7)) :
    read F cid p rows1 = read F cid p rows2 := by
  show List.foldlM (processRow F) { cid with location := freshLocation p } rows1
    = List.foldlM (processRow F) { cid with location := freshLocation p } rows2
  generalize { cid with location := freshLocation p } = c0
  induction rows1 generalizing rows2 c0 with
  | nil =>
    cases rows2 with
    | nil => rfl
    | cons r2 rs2 => simp at h
  | cons r1 rs1 ih =>
    cases rows2 with
    | nil => simp at h
    | cons r2 rs2 =>
      simp only [List.map_cons, List.cons.injEq] at h
      obtain ⟨h1, h2⟩ := h
      rw [List.foldlM_cons, List.foldlM_cons, processRow_congr F c0 h1]
      cases hres : processRow F c0 r2 with
      | error e => rw [exceptBind_error, exceptBind_error]
      | ok c1 =>
        rw [exceptBind_ok, exceptBind_ok]
        exact ih rs2 h2 c1

/-- Witness for C10: a data-format row with an extra eighth cell compiles
identically to the same row without it. -/
theorem read_ignores_trailing_cells_witness :
    read F0 cidNew "cid" [["d", "format", "delimited", "", "", "", "", "EXTRA"]] =
      read F0 cidNew "cid" [["d", "format", "delimited", "", "", "", ""]] :=
  read_ignores_trailing_cells F0 cidNew "cid"
    [["d", "format", "delimited", "", "", "", "", "EXTRA"]]
    [["d", "format", "delimited", "", "", "", ""]] rfl
